import Mathlib

/-!
Verification of the stack-diffing and per-thread state-tracking engine of the
`trace` package (file `trace.go`), via a shallow embedding in Lean.

The embedding keeps the source's structure: `FrameInfo`, `GoroutineInfo`,
`Tracer`, `findLastCommonFrameIndex`, `messageFrom`, `setGoroutine`,
`printFrameIndicesLowerThan`, `printHistory` and `Trace` are translated
one-for-one.  External collaborators (the runtime stack walk, the goroutine-id
discovery, the wall clock and the `time.Time` text rendering) are inputs of the
embedded functions, as the specification treats them.  Go pointers to
`FrameInfo` appear in two ways: inside the tracer state the frames are never
nil, so slices of pointers are embedded as lists of values; the pointer-level
receivers `Copy`/`Equal`/`Same` are additionally embedded over `Option` to
capture their nil behaviour.  Go slices/maps become lists, Go `int` becomes
`Int`, times become `Nat` tick counts.
-/

namespace GoTrace

/-- Embedding of `runtime.Frame`: the location fields compared by
`FrameInfo.Same` (`fr.Frame == other.Frame` in Go is field-wise equality). -/
structure Frame where
  pc : Nat
  function : String
  file : String
  line : Int
  entry : Nat
deriving DecidableEq

/-- Embedding of `FrameInfo`: a frame plus the time at which it was recorded. -/
structure FrameInfo where
  Frame : Frame
  TimeRecorded : Nat
deriving DecidableEq

instance : Inhabited Frame := ⟨⟨0, "", "", 0, 0⟩⟩
instance : Inhabited FrameInfo := ⟨⟨default, 0⟩⟩

/-- Go `func (fr *FrameInfo) Same(other *FrameInfo) bool`: location-only
equality `fr.Frame == other.Frame`, on dereferenced (non-nil) receivers. -/
def FrameInfo.Same (fr other : FrameInfo) : Bool :=
  fr.Frame == other.Frame

/-- Go `func (fr *FrameInfo) Equal(other *FrameInfo) bool`: full equality
`*fr == *other`, on dereferenced (non-nil) receivers. -/
def FrameInfo.Equal (fr other : FrameInfo) : Bool :=
  fr == other

/-- Pointer-level embedding of `Copy`: a Go `*FrameInfo` is an
`Option FrameInfo` (`none` = nil).  `Copy` checks for nil and returns nil,
otherwise rebuilds the record field by field. -/
def copyPtr : Option FrameInfo → Option FrameInfo
  | none => none
  | some fr => some { Frame := fr.Frame, TimeRecorded := fr.TimeRecorded }

/-- Pointer-level embedding of `Equal`: `*fr == *other` dereferences both
operands, so a nil operand faults — modelled by `none`. -/
def equalPtr : Option FrameInfo → Option FrameInfo → Option Bool
  | some fr, some other => some (fr.Equal other)
  | _, _ => none

/-- Pointer-level embedding of `Same`: `fr.Frame == other.Frame` dereferences
both operands, so a nil operand faults — modelled by `none`. -/
def samePtr : Option FrameInfo → Option FrameInfo → Option Bool
  | some fr, some other => some (fr.Same other)
  | _, _ => none

/-- The `Same` check of the inner scan of `findLastCommonFrameIndex`, at
indices `i` of `first` and `j` of `second`.  In every reachable state of the
algorithm both indices are in range (the outer code guards `i`, and the
alignment invariant keeps `j` in range), so the out-of-range value is
immaterial. -/
def sameAt (first second : List FrameInfo) (i j : Nat) : Bool :=
  match first[i]?, second[j]? with
  | some a, some b => a.Same b
  | _, _ => false

/-- The inner loop of `findLastCommonFrameIndex` (`for increment = 0; ...`),
with an explicit fuel making the recursion structural (the wrapper passes
`first.length - i`, the exact number of iterations the Go loop can make, so
the fuel never runs out before the loop condition fails).  Starting at
positions `(i, j)`, returns `some inc` for the first offset `inc` with
`i + inc < first.length` at which the frames are not `Same`
(`matching = false` with that `increment` in Go), and `none` when the whole
remaining suffix of `first` matches (`matching = true`). -/
def innerScanAux : Nat → List FrameInfo → List FrameInfo → Nat → Nat → Option Nat
  | 0, _, _, _, _ => none
  | fuel + 1, first, second, i, j =>
    if i < first.length then
      if sameAt first second i j then
        (innerScanAux fuel first second (i + 1) (j + 1)).map (· + 1)
      else some 0
    else none

/-- The inner loop at its actual fuel. -/
def innerScan (first second : List FrameInfo) (i j : Nat) : Option Nat :=
  innerScanAux (first.length - i) first second i j

/-- The outer loop of `findLastCommonFrameIndex` (`for firstIdx < firstLen`),
fueled the same way: on a mismatch at offset `inc` both indices are advanced
past it (`firstIdx += increment + 1`, which consumes at least one unit of
fuel), otherwise the current pair is the answer. -/
def outerLoopAux : Nat → List FrameInfo → List FrameInfo → Nat → Nat → Nat × Nat
  | 0, _, _, i, j => (i, j)
  | fuel + 1, first, second, i, j =>
    if i < first.length then
      match innerScan first second i j with
      | none => (i, j)
      | some inc => outerLoopAux fuel first second (i + inc + 1) (j + inc + 1)
    else (i, j)

/-- The outer loop at a sufficient fuel (`first.length` bounds the number of
iterations, since `firstIdx` grows by at least one per iteration and the loop
stops at `firstLen`). -/
def outerLoop (first second : List FrameInfo) (i j : Nat) : Nat × Nat :=
  outerLoopAux first.length first second i j

/-- Embedding of `findLastCommonFrameIndex`: tail-align the two stacks, bump a
`(0, 0)` candidate to `(1, 1)`, then run the synchronized suffix-matching
scan.  Go's non-negative `int` indices are `Nat`. -/
def findLastCommonFrameIndex (first second : List FrameInfo) : Nat × Nat :=
  let firstLen := first.length
  let secondLen := second.length
  let p : Nat × Nat :=
    if firstLen > secondLen then (firstLen - secondLen, 0)
    else (0, secondLen - firstLen)
  let q : Nat × Nat :=
    if p.1 = 0 ∧ p.2 = 0 then (p.1 + 1, p.2 + 1) else p
  outerLoop first second q.1 q.2

/-- Frames built like the test helper `fromStrings`: only `File` is set. -/
def frameOf (name : String) : FrameInfo :=
  { Frame := { pc := 0, function := "", file := name, line := 0, entry := 0 },
    TimeRecorded := 0 }

/-- Named concrete stacks, built like the test helper `fromStrings`. -/
def stackCBA : List FrameInfo :=
  [frameOf ("Carol"), frameOf ("Bob"), frameOf ("Alice")]

/-- A second concrete stack sharing the `Bob`/`Alice` tail with `stackECBA`. -/
def stackFDBA : List FrameInfo :=
  [frameOf ("Felicia"), frameOf ("Dan"), frameOf ("Bob"), frameOf ("Alice")]

/-- A four-deep concrete stack. -/
def stackECBA : List FrameInfo :=
  [frameOf ("Eric"), frameOf ("Carol"), frameOf ("Bob"), frameOf ("Alice")]

/-- Go `strings.Repeat`: `n` copies of `s` concatenated.  (Go panics on a
negative count; the embedding's count is already a `Nat`.) -/
def goRepeat (s : String) : Nat → String
  | 0 => ""
  | n + 1 => s ++ goRepeat s n

/-- Right-justification in a field of `w` spaces, as Go's `%Ns`/`%Nd`. -/
def padLeft (s : String) (w : Nat) : String :=
  String.mk (List.replicate (w - s.length) ' ') ++ s

/-- Left-justification in a field of `w` spaces, as Go's `%-Ns`/`%-Nd`. -/
def padRight (s : String) (w : Nat) : String :=
  s ++ String.mk (List.replicate (w - s.length) ' ')

/-- The Go `interface` values passed to `Trace`/`messageFrom` in this
package: format strings, integers and runes (a rune being the callout
character substituted into a printed line). -/
inductive Arg where
  | str : String → Arg
  | int : Int → Arg
  | char : Char → Arg
deriving DecidableEq

/-- Rendering of Go `%v` for the embedded argument values (a Go rune is an
`int32`, so `%v` prints its numeric value). -/
def goShow : Arg → String
  | Arg.str s => s
  | Arg.int n => toString n
  | Arg.char c => toString c.toNat

/-- Go fmt's `type=value` description used in its `%!`-style error output. -/
def describeArg : Arg → String
  | Arg.str s => "string=" ++ s
  | Arg.int n => "int=" ++ toString n
  | Arg.char c => "int32=" ++ toString c.toNat

/-- Go fmt's trailing `%!(EXTRA type=value, ...)` report for arguments left
over once the format string is exhausted. -/
def extraArgs : List Arg → String
  | [] => ""
  | a :: rest =>
      "%!(EXTRA " ++ String.intercalate (", ") ((a :: rest).map describeArg) ++ ")"

/-- Rendering of one verb applied to one argument: `%v` prints any value,
`%s`/`%d`/`%c` print a matching value, and any other combination produces
fmt's `%!x(type=value)` error form. -/
def verbRender : Char → Arg → String
  | 'v', a => goShow a
  | 's', Arg.str s => s
  | 'd', Arg.int n => toString n
  | 'c', Arg.char ch => String.singleton ch
  | c, a => "%!" ++ String.singleton c ++ "(" ++ describeArg a ++ ")"

/-- The slice of Go `fmt.Sprintf` this package exercises: the verbs `%v`,
`%s`, `%d`, `%c`, the escape `%%`, and fmt's `%!` error forms for a format
ending in `%`, a missing argument, a mismatched verb and extra arguments.
Width/flag syntax is never consumed through this path: the two width-using
format strings of `trace.go` are embedded directly as padding (see
`frameLine` and `switchLine`). -/
def goSprintfAux : List Char → List Arg → String
  | [], args => extraArgs args
  | ['%'], args => "%!(NOVERB)" ++ extraArgs args
  | '%' :: '%' :: rest, args => "%" ++ goSprintfAux rest args
  | '%' :: c :: rest, [] =>
      "%!" ++ String.singleton c ++ "(MISSING)" ++ goSprintfAux rest []
  | '%' :: c :: rest, a :: args => verbRender c a ++ goSprintfAux rest args
  | c :: rest, args => String.singleton c ++ goSprintfAux rest args

/-- Go `fmt.Sprintf` over an embedded format string. -/
def goSprintf (format : String) (args : List Arg) : String :=
  goSprintfAux format.data args

/-- Embedding of `messageFrom`: with no arguments the message is empty; a
string first argument is the format and the remaining arguments its values
(`values` stays empty when there is only the format); otherwise the format is
`strings.Repeat("%v ", num)` applied to all the arguments. -/
def messageFrom (args : List Arg) : String :=
  match args with
  | [] => ""
  | a :: rest =>
    match a with
    | Arg.str format => goSprintf format rest
    | _ => goSprintf (goRepeat ("%v ") args.length) args

/-- Embedding of `GoroutineInfo`. -/
structure GoroutineInfo where
  ID : Int
  Frames : List FrameInfo
  TopMessage : String
  History : List String
deriving DecidableEq

/-- Embedding of the `Tracer` configuration and tracked state.  The
goroutine map is an association list keyed by goroutine id. -/
structure Tracer where
  On : Bool
  OutPresent : Bool
  Capacity : Int
  SourceLength : Int
  LockGoroutine : Bool
  OmitTime : Bool
  OnGoroutineSwitchPrintCurrentStack : Bool
  OnGoroutineSwitchPrintStackHistory : Bool
  goroutines : List (Int × GoroutineInfo)
  goroutineID : Int
  marker : String
deriving DecidableEq

/-- Lookup in the goroutine map. -/
def lookupG : List (Int × GoroutineInfo) → Int → Option GoroutineInfo
  | [], _ => none
  | (k, v) :: rest, key => if k = key then some v else lookupG rest key

/-- Insert-or-replace in the goroutine map. -/
def updateG : List (Int × GoroutineInfo) → Int → GoroutineInfo → List (Int × GoroutineInfo)
  | [], key, v => [(key, v)]
  | (k, w) :: rest, key, v =>
    if k = key then (key, v) :: rest else (k, w) :: updateG rest key v

/-- The guard of `proceed()`: disabled, absent sink or non-positive capacity
refuse the call.  (The lazy initialisation `proceed()` also performs — the
empty map and the callout runes — is the embedding's starting state.) -/
def proceedCheck (tr : Tracer) : Bool :=
  tr.On && tr.OutPresent && decide (0 < tr.Capacity)

/-- Stands for the external `time.Time.Format` with the fixed layout of
`printFrameIndicesLowerThan` (a timestamp followed by a space); time is an
abstract tick count and no claim depends on the exact text. -/
def timeFormat (t : Nat) : String := toString t ++ " "

/-- Embedding of `indentation`: the `tr.indents` cache deterministically
holds `2*level` spaces at index `level`, so the lookup is a pure function. -/
def indentation (level : Nat) : String :=
  String.mk (List.replicate (2 * level) ' ')

/-- The `"%s goroutine switched: %3d -> %-3d %s"` line of `setGoroutine`. -/
def switchLine (marker : String) (old new : Int) : String :=
  marker ++ " goroutine switched: " ++ padLeft (toString old) 3 ++ " -> " ++
    padRight (toString new) 3 ++ " " ++ marker

/-- The goroutine `setGoroutine` resolves for `gid`: the tracked one, or a
fresh `GoroutineInfo{ID: goroutineID}` when the map has none. -/
def resolvedGoroutine (tr : Tracer) (gid : Int) : GoroutineInfo :=
  (lookupG tr.goroutines gid).getD
    { ID := gid, Frames := [], TopMessage := "", History := [] }

/-- The result tuple of `setGoroutine` plus the tracer-state and sink-output
effects of the call. -/
structure SetGoroutineResult where
  proceed : Bool
  changed : Bool
  goroutine : Option GoroutineInfo
  tracer : Tracer
  output : List String

/-- The shared tail of `setGoroutine`: record the id as last-seen, resolve
the goroutine, creating and inserting it when absent. -/
def finishSet (tr : Tracer) (gid : Int) (changed : Bool) (out : List String) :
    SetGoroutineResult :=
  let tr1 := { tr with goroutineID := gid }
  let g := resolvedGoroutine tr1 gid
  let tr2 :=
    if (lookupG tr1.goroutines gid).isNone then
      { tr1 with goroutines := updateG tr1.goroutines gid g }
    else tr1
  { proceed := true, changed := changed, goroutine := some g, tracer := tr2,
    output := out }

/-- The marker after the `len(tr.marker) != tr.SourceLength` rebuild check of
`setGoroutine` (when the lengths already agree the rebuild is skipped and the
stored marker used as-is).  (`strings.Repeat` with a negative `SourceLength`
would panic in Go; the width is clamped at 0.) -/
def markerOf (tr : Tracer) : String :=
  if (tr.marker.length : Int) ≠ tr.SourceLength then
    goRepeat ("-") tr.SourceLength.toNat
  else tr.marker

/-- Embedding of `setGoroutine`: on an id change, a configured
single-goroutine lock refuses the call with nothing mutated and nothing
written; otherwise the `-` marker is (re)built to the configured width, the
switch line is emitted (still naming the previous id) and the change
flagged. -/
def Tracer.setGoroutine (tr : Tracer) (gid : Int) : SetGoroutineResult :=
  if gid ≠ tr.goroutineID then
    if tr.LockGoroutine then
      { proceed := false, changed := true, goroutine := none, tracer := tr,
        output := [] }
    else
      finishSet { tr with marker := markerOf tr } gid true
        [switchLine (markerOf tr) tr.goroutineID gid]
  else
    finishSet tr gid false []

/-- The line `printFrameIndicesLowerThan` formats for frame `i` of `g`:
optional timestamp, optional right-truncated source location (whose tail is
the literal `%c` later filled with the callout), indentation by stack depth,
function name, and — only at index 0 — the top message; the whole line is
`TrimSpace`d.  Characters stand for Go's bytes (all reachable text is
ASCII). -/
def frameLine (tr : Tracer) (g : GoroutineInfo) (i : Nat) : String :=
  let frame := g.Frames.getD i default
  let location :=
    if 0 < tr.SourceLength then
      let loc := padLeft frame.Frame.file 200 ++ ":" ++
        padRight (toString frame.Frame.line) 4 ++ "  p" ++
        toString frame.Frame.pc ++ " g" ++ padRight (toString g.ID) 3 ++ "%c"
      if (loc.length : Int) > tr.SourceLength then
        loc.drop (loc.length - tr.SourceLength.toNat)
      else loc
    else ""
  let timestamp := if !tr.OmitTime then timeFormat frame.TimeRecorded else ""
  let message := if i = 0 then g.TopMessage else ""
  let level := g.Frames.length - i - 1
  (timestamp ++ location ++ indentation level ++ " " ++
    frame.Frame.function ++ "() " ++ message).trim

/-- The body of the printing loop of `printFrameIndicesLowerThan`, from
frame index `i` down to 0: each line is appended to the history with the
previous-frame callout `' '` substituted, and emitted with `'+'` when its
index is below `markFrom` and `' '` otherwise. -/
def printFramesFrom (tr : Tracer) (g : GoroutineInfo) (i : Nat) (markFrom : Int) :
    GoroutineInfo × List String :=
  let line := frameLine tr g i
  let histEntry := goSprintf line [Arg.char ' ']
  let callout : Char := if (i : Int) < markFrom then '+' else ' '
  let out := goSprintf line [Arg.char callout]
  let g1 := { g with History := g.History ++ [histEntry] }
  match i with
  | 0 => (g1, [out])
  | Nat.succ i1 =>
    let r := printFramesFrom tr g1 i1 markFrom
    (r.1, out :: r.2)

/-- Embedding of `printFrameIndicesLowerThan`: negative `idx`/`markFrom`
normalise to the frame count, then the frames with indices strictly below
`idx` are printed from the outermost down.  (The `error:` report Go makes
when `idx` exceeds the frame count goes to standard output, not the sink,
and the following out-of-range read is unreachable from `Trace`.) -/
def printFrameIndicesLowerThan (tr : Tracer) (g : GoroutineInfo) (idx markFrom : Int) :
    GoroutineInfo × List String :=
  let numFrames : Int := (g.Frames.length : Int)
  let idx1 := if idx < 0 then numFrames else idx
  let markFrom1 := if markFrom < 0 then numFrames else markFrom
  let idx2 := idx1 - 1
  if idx2 < 0 then (g, [])
  else printFramesFrom tr g idx2.toNat markFrom1

/-- Embedding of `printHistory`: one `Println` per history entry, in order. -/
def printHistory (g : GoroutineInfo) : List String := g.History

/-- Embedding of `Trace` past the frame capture: `captured` is the raw frame
sequence the runtime walk produced (innermost first), `now` the clock
reading, `gid` the calling goroutine's id.  Returns the updated tracer and
the lines emitted to the sink, in order. -/
def Tracer.trace (tr : Tracer) (gid : Int) (captured : List Frame) (now : Nat)
    (args : List Arg) : Tracer × List String :=
  if proceedCheck tr then
    let r := tr.setGoroutine gid
    if r.proceed then
      match r.goroutine with
      | none => (r.tracer, r.output)
      | some g =>
        let tr1 := r.tracer
        let allFrameInfos : List FrameInfo :=
          captured.map (fun fr => { Frame := fr, TimeRecorded := now })
        let g1 := { g with TopMessage := messageFrom args }
        let p := findLastCommonFrameIndex g1.Frames allFrameInfos
        let g2 := { g1 with Frames := allFrameInfos.take p.2 ++ g1.Frames.drop p.1 }
        let histOut :=
          if r.changed && tr1.OnGoroutineSwitchPrintStackHistory then
            printHistory g2
          else []
        let printFrom : Int :=
          if r.changed && !tr1.OnGoroutineSwitchPrintStackHistory &&
              tr1.OnGoroutineSwitchPrintCurrentStack then -1
          else (p.2 : Int)
        let pr := printFrameIndicesLowerThan tr1 g2 printFrom (p.2 : Int)
        ({ tr1 with goroutines := updateG tr1.goroutines gid pr.1 },
          r.output ++ histOut ++ pr.2)
    else (r.tracer, r.output)
  else (tr, [])

/-- Sample concrete data for the witnesses: a raw frame, a tracked goroutine
with one history entry, and a configured tracer last seen on goroutine 1. -/
def sampleFrame : Frame :=
  { pc := 0, function := "f", file := "x.go", line := 3, entry := 0 }

/-- Sample goroutine state for goroutine 2. -/
def sampleG2 : GoroutineInfo :=
  { ID := 2, Frames := [], TopMessage := "", History := ["old line"] }

/-- Sample tracer: on, sink present, capacity 1, locked toward goroutine 1. -/
def sampleTracer : Tracer :=
  { On := true, OutPresent := true, Capacity := 1, SourceLength := 0,
    LockGoroutine := false, OmitTime := true,
    OnGoroutineSwitchPrintCurrentStack := false,
    OnGoroutineSwitchPrintStackHistory := true,
    goroutines := [(2, sampleG2)], goroutineID := 1, marker := "" }

/-- Spec-side rendering for C6 ("k space-joined generic placeholders filled
with all k argument values"): the printed values joined by single spaces. -/
def spaceJoined : List Arg → String
  | [] => ""
  | [a] => goShow a
  | a :: rest => goShow a ++ " " ++ spaceJoined rest

/-- Each printed value followed by one space — what `Sprintf` over
`strings.Repeat("%v ", k)` actually produces. -/
def spaceTrailed : List Arg → String
  | [] => ""
  | a :: rest => goShow a ++ " " ++ spaceTrailed rest

/-! Everything below is proved about the definitions above: general
lemmas about the suffix-matching scan, the Go fmt slice, the goroutine
map and the printing loop, followed by the claim theorems and their
witnesses. -/

example : findLastCommonFrameIndex
    [frameOf ("Carol"), frameOf ("Bob"), frameOf ("Alice")]
    [frameOf ("Carol"), frameOf ("Bob"), frameOf ("Alice")] = (1, 1) := by decide

example : findLastCommonFrameIndex
    [frameOf ("Eric"), frameOf ("Carol"), frameOf ("Bob"), frameOf ("Alice")]
    [frameOf ("Felicia"), frameOf ("Dan"), frameOf ("Bob"), frameOf ("Alice")] = (2, 2) := by
  decide

example : findLastCommonFrameIndex
    [frameOf ("Bob"), frameOf ("Alice")]
    [frameOf ("Felicia"), frameOf ("Dan"), frameOf ("Bob"), frameOf ("Alice")] = (0, 2) := by
  decide

example : findLastCommonFrameIndex
    [frameOf ("Bob"), frameOf ("Alice"), frameOf ("Eric"), frameOf ("Carol"),
     frameOf ("Bob"), frameOf ("Alice")]
    [frameOf ("Bob"), frameOf ("Alice")] = (4, 0) := by decide

example : findLastCommonFrameIndex
    [frameOf ("Eric"), frameOf ("Carol"), frameOf ("Bob"), frameOf ("Alice")] [] = (4, 0) := by
  decide

example : findLastCommonFrameIndex
    [] [frameOf ("Eric"), frameOf ("Carol"), frameOf ("Bob"), frameOf ("Alice")] = (0, 4) := by
  decide

example : findLastCommonFrameIndex [] [] = (1, 1) := by decide

theorem sameAt_eq (f s : List FrameInfo) {i j : Nat} (hf : i < f.length)
    (hs : j < s.length) : sameAt f s i j = (f[i].Same s[j]) := by
  unfold sameAt
  rw [List.getElem?_eq_getElem hf, List.getElem?_eq_getElem hs]

theorem innerScanAux_none_sameAt (fuel : Nat) (f s : List FrameInfo) (i j : Nat)
    (hfuel : f.length ≤ i + fuel) (h : innerScanAux fuel f s i j = none) :
    ∀ k, i + k < f.length → sameAt f s (i + k) (j + k) = true := by
  induction fuel generalizing i j with
  | zero => intro k hk; omega
  | succ fuel ih =>
    intro k hk
    rw [innerScanAux] at h
    have hi : i < f.length := by omega
    rw [if_pos hi] at h
    by_cases hsame : sameAt f s i j
    · rw [if_pos hsame, Option.map_eq_none'] at h
      match k with
      | 0 => simpa using hsame
      | k + 1 =>
        have := ih (i + 1) (j + 1) (by omega) h k (by omega)
        simpa [Nat.add_assoc, Nat.add_comm 1 k] using this
    · rw [if_neg hsame] at h
      exact absurd h (by simp)

theorem innerScanAux_none_of_sameAt (fuel : Nat) (f s : List FrameInfo) (i j : Nat)
    (hall : ∀ k, i + k < f.length → sameAt f s (i + k) (j + k) = true) :
    innerScanAux fuel f s i j = none := by
  induction fuel generalizing i j with
  | zero => rfl
  | succ fuel ih =>
    rw [innerScanAux]
    by_cases hi : i < f.length
    · rw [if_pos hi]
      have h0 : sameAt f s i j = true := by simpa using hall 0 (by omega)
      rw [if_pos h0]
      have : innerScanAux fuel f s (i + 1) (j + 1) = none := by
        apply ih
        intro k hk
        have := hall (k + 1) (by omega)
        simpa [Nat.add_assoc, Nat.add_comm 1 k] using this
      simp [this]
    · rw [if_neg hi]

theorem innerScanAux_some_lt (fuel : Nat) (f s : List FrameInfo) (i j inc : Nat)
    (h : innerScanAux fuel f s i j = some inc) : i + inc < f.length := by
  induction fuel generalizing i j inc with
  | zero => exact absurd h (by simp [innerScanAux])
  | succ fuel ih =>
    rw [innerScanAux] at h
    by_cases hi : i < f.length
    · rw [if_pos hi] at h
      by_cases hsame : sameAt f s i j
      · rw [if_pos hsame] at h
        rcases Option.map_eq_some'.mp h with ⟨inc', h1, h2⟩
        have := ih (i + 1) (j + 1) inc' h1
        omega
      · rw [if_neg hsame] at h
        have : inc = 0 := by simpa using h.symm
        omega
    · rw [if_neg hi] at h
      exact absurd h (by simp)

theorem innerScan_none_sameAt (f s : List FrameInfo) (i j : Nat)
    (h : innerScan f s i j = none) :
    ∀ k, i + k < f.length → sameAt f s (i + k) (j + k) = true :=
  innerScanAux_none_sameAt (f.length - i) f s i j (by omega) h

theorem innerScan_none_of_sameAt (f s : List FrameInfo) (i j : Nat)
    (hall : ∀ k, i + k < f.length → sameAt f s (i + k) (j + k) = true) :
    innerScan f s i j = none :=
  innerScanAux_none_of_sameAt (f.length - i) f s i j hall

theorem innerScan_some_lt (f s : List FrameInfo) (i j inc : Nat)
    (h : innerScan f s i j = some inc) : i + inc < f.length :=
  innerScanAux_some_lt (f.length - i) f s i j inc h

theorem outerLoopAux_stop (fuel : Nat) (f s : List FrameInfo) (i j : Nat)
    (hi : ¬i < f.length) : outerLoopAux fuel f s i j = (i, j) := by
  cases fuel with
  | zero => rfl
  | succ fuel => rw [outerLoopAux, if_neg hi]

theorem outerLoopAux_succ_none (fuel : Nat) (f s : List FrameInfo) (i j : Nat)
    (hi : i < f.length) (hscan : innerScan f s i j = none) :
    outerLoopAux (fuel + 1) f s i j = (i, j) := by
  rw [outerLoopAux, if_pos hi, hscan]

theorem outerLoopAux_succ_some (fuel : Nat) (f s : List FrameInfo) (i j inc : Nat)
    (hi : i < f.length) (hscan : innerScan f s i j = some inc) :
    outerLoopAux (fuel + 1) f s i j = outerLoopAux fuel f s (i + inc + 1) (j + inc + 1) := by
  rw [outerLoopAux, if_pos hi, hscan]

theorem outerLoopAux_mono (fuel : Nat) (f s : List FrameInfo) (i j : Nat) :
    i ≤ (outerLoopAux fuel f s i j).1 ∧ j ≤ (outerLoopAux fuel f s i j).2 := by
  induction fuel generalizing i j with
  | zero => exact ⟨le_refl i, le_refl j⟩
  | succ fuel ih =>
    by_cases hi : i < f.length
    · cases hscan : innerScan f s i j with
      | none => rw [outerLoopAux_succ_none fuel f s i j hi hscan]; exact ⟨le_refl i, le_refl j⟩
      | some inc =>
        rw [outerLoopAux_succ_some fuel f s i j inc hi hscan]
        have := ih (i + inc + 1) (j + inc + 1)
        exact ⟨by omega, by omega⟩
    · rw [outerLoopAux_stop _ f s i j hi]
      exact ⟨le_refl i, le_refl j⟩

theorem outerLoopAux_align (fuel : Nat) (f s : List FrameInfo) (i j : Nat)
    (h : i + s.length = j + f.length) :
    (outerLoopAux fuel f s i j).1 + s.length = (outerLoopAux fuel f s i j).2 + f.length := by
  induction fuel generalizing i j with
  | zero => exact h
  | succ fuel ih =>
    by_cases hi : i < f.length
    · cases hscan : innerScan f s i j with
      | none => rw [outerLoopAux_succ_none fuel f s i j hi hscan]; exact h
      | some inc =>
        rw [outerLoopAux_succ_some fuel f s i j inc hi hscan]
        exact ih (i + inc + 1) (j + inc + 1) (by omega)
    · rw [outerLoopAux_stop _ f s i j hi]
      exact h

theorem outerLoopAux_le (fuel : Nat) (f s : List FrameInfo) (i j : Nat)
    (h : i ≤ f.length) : (outerLoopAux fuel f s i j).1 ≤ f.length := by
  induction fuel generalizing i j with
  | zero => exact h
  | succ fuel ih =>
    by_cases hi : i < f.length
    · cases hscan : innerScan f s i j with
      | none => rw [outerLoopAux_succ_none fuel f s i j hi hscan]; exact h
      | some inc =>
        rw [outerLoopAux_succ_some fuel f s i j inc hi hscan]
        have := innerScan_some_lt f s i j inc hscan
        exact ih (i + inc + 1) (j + inc + 1) (by omega)
    · rw [outerLoopAux_stop _ f s i j hi]
      exact h

theorem outerLoopAux_matched (fuel : Nat) (f s : List FrameInfo) (i j : Nat)
    (hfuel : f.length ≤ i + fuel) :
    ∀ k, (outerLoopAux fuel f s i j).1 + k < f.length →
      sameAt f s ((outerLoopAux fuel f s i j).1 + k)
        ((outerLoopAux fuel f s i j).2 + k) = true := by
  induction fuel generalizing i j with
  | zero =>
    intro k hk
    simp only [outerLoopAux] at hk
    omega
  | succ fuel ih =>
    by_cases hi : i < f.length
    · cases hscan : innerScan f s i j with
      | none =>
        rw [outerLoopAux_succ_none fuel f s i j hi hscan]
        exact innerScan_none_sameAt f s i j hscan
      | some inc =>
        rw [outerLoopAux_succ_some fuel f s i j inc hi hscan]
        exact ih (i + inc + 1) (j + inc + 1) (by omega)
    · rw [outerLoopAux_stop _ f s i j hi]
      intro k hk
      omega

theorem outerLoopAux_of_none (fuel : Nat) (f s : List FrameInfo) (i j : Nat)
    (h : innerScan f s i j = none) : outerLoopAux fuel f s i j = (i, j) := by
  cases fuel with
  | zero => rfl
  | succ fuel =>
    by_cases hi : i < f.length
    · exact outerLoopAux_succ_none fuel f s i j hi h
    · exact outerLoopAux_stop _ f s i j hi

/-- The initial index pair of `findLastCommonFrameIndex`, by cases on the
length comparison: a longer `first` offsets `firstIdx`, a longer `second`
offsets `secondIdx`, and equal lengths trigger the `(0,0) → (1,1)` bump. -/
theorem findLastCommonFrameIndex_eq (f s : List FrameInfo) :
    findLastCommonFrameIndex f s =
      if f.length > s.length then outerLoop f s (f.length - s.length) 0
      else if s.length > f.length then outerLoop f s 0 (s.length - f.length)
      else outerLoop f s 1 1 := by
  simp only [findLastCommonFrameIndex]
  split_ifs with h1 h2 h3 h4 h5 <;> first | rfl | omega | simp_all

theorem findLastCommonFrameIndex_align (f s : List FrameInfo) :
    (findLastCommonFrameIndex f s).1 + s.length =
      (findLastCommonFrameIndex f s).2 + f.length := by
  rw [findLastCommonFrameIndex_eq]
  by_cases h1 : f.length > s.length
  · rw [if_pos h1]
    exact outerLoopAux_align f.length f s (f.length - s.length) 0 (by omega)
  · by_cases h2 : s.length > f.length
    · rw [if_neg h1, if_pos h2]
      exact outerLoopAux_align f.length f s 0 (s.length - f.length) (by omega)
    · rw [if_neg h1, if_neg h2]
      exact outerLoopAux_align f.length f s 1 1 (by omega)

theorem findLastCommonFrameIndex_le (f s : List FrameInfo)
    (h : ¬(f = [] ∧ s = [])) : (findLastCommonFrameIndex f s).1 ≤ f.length := by
  rw [findLastCommonFrameIndex_eq]
  by_cases h1 : f.length > s.length
  · rw [if_pos h1]
    exact outerLoopAux_le f.length f s (f.length - s.length) 0 (by omega)
  · by_cases h2 : s.length > f.length
    · rw [if_neg h1, if_pos h2]
      exact outerLoopAux_le f.length f s 0 (s.length - f.length) (by omega)
    · rw [if_neg h1, if_neg h2]
      apply outerLoopAux_le f.length f s 1 1
      by_contra hlen
      have hf : f = [] := List.length_eq_zero.mp (by omega)
      have hs : s = [] := List.length_eq_zero.mp (by omega)
      exact h ⟨hf, hs⟩

theorem findLastCommonFrameIndex_matched (f s : List FrameInfo) :
    ∀ k, (findLastCommonFrameIndex f s).1 + k < f.length →
      sameAt f s ((findLastCommonFrameIndex f s).1 + k)
        ((findLastCommonFrameIndex f s).2 + k) = true := by
  rw [findLastCommonFrameIndex_eq]
  by_cases h1 : f.length > s.length
  · rw [if_pos h1]
    exact outerLoopAux_matched f.length f s (f.length - s.length) 0 (by omega)
  · by_cases h2 : s.length > f.length
    · rw [if_neg h1, if_pos h2]
      exact outerLoopAux_matched f.length f s 0 (s.length - f.length) (by omega)
    · rw [if_neg h1, if_neg h2]
      exact outerLoopAux_matched f.length f s 1 1 (by omega)

theorem findLastCommonFrameIndex_ne_zero (f s : List FrameInfo) :
    findLastCommonFrameIndex f s ≠ (0, 0) := by
  rw [findLastCommonFrameIndex_eq]
  simp only [outerLoop]
  by_cases h1 : f.length > s.length
  · rw [if_pos h1]
    have := (outerLoopAux_mono f.length f s (f.length - s.length) 0).1
    intro hcontra
    rw [Prod.ext_iff] at hcontra
    omega
  · by_cases h2 : s.length > f.length
    · rw [if_neg h1, if_pos h2]
      have := (outerLoopAux_mono f.length f s 0 (s.length - f.length)).2
      intro hcontra
      rw [Prod.ext_iff] at hcontra
      omega
    · rw [if_neg h1, if_neg h2]
      have := (outerLoopAux_mono f.length f s 1 1).1
      intro hcontra
      rw [Prod.ext_iff] at hcontra
      omega

/-- Bridge from the index-wise `sameAt` facts to an element-wise `Forall₂` on
the dropped suffixes. -/
theorem forall₂_drop_of_sameAt (f s : List FrameInfo) (oi ni : Nat)
    (h1 : oi ≤ f.length) (h2 : oi + s.length = ni + f.length)
    (h3 : ∀ k, oi + k < f.length → sameAt f s (oi + k) (ni + k) = true) :
    List.Forall₂ (fun a b => a.Same b = true) (f.drop oi) (s.drop ni) := by
  apply List.forall₂_of_length_eq_of_get
  · rw [List.length_drop, List.length_drop]; omega
  · intro k hk1 hk2
    rw [List.length_drop] at hk1 hk2
    have hf : oi + k < f.length := by omega
    have hs : ni + k < s.length := by omega
    have hsame := h3 k hf
    rw [sameAt_eq f s hf hs] at hsame
    simpa [List.get_eq_getElem, List.getElem_drop] using hsame

/-- C1: for every pair of non-empty frame stacks `older` and `newer`
(innermost frame at index 0), `findLastCommonFrameIndex` returns indices
`(oi, ni)` such that the suffixes `older[oi:]` and `newer[ni:]` have equal
length and are element-wise `Same` at every position, and `(oi, ni)` is not
`(0, 0)`. -/
theorem claim_C1 (older newer : List FrameInfo) (_holder : older ≠ [])
    (hnewer : newer ≠ []) :
    (older.drop (findLastCommonFrameIndex older newer).1).length =
      (newer.drop (findLastCommonFrameIndex older newer).2).length ∧
    List.Forall₂ (fun a b => a.Same b = true)
      (older.drop (findLastCommonFrameIndex older newer).1)
      (newer.drop (findLastCommonFrameIndex older newer).2) ∧
    findLastCommonFrameIndex older newer ≠ (0, 0) := by
  have hle := findLastCommonFrameIndex_le older newer (by exact fun hc => hnewer hc.2)
  have halign := findLastCommonFrameIndex_align older newer
  have hmatch := findLastCommonFrameIndex_matched older newer
  refine ⟨?_, ?_, findLastCommonFrameIndex_ne_zero older newer⟩
  · rw [List.length_drop, List.length_drop]; omega
  · exact forall₂_drop_of_sameAt older newer _ _ hle halign hmatch

/-- Witness for C1 at the concrete stacks of the repository's own test
(`Eric,Carol,Bob,Alice` against `Felicia,Dan,Bob,Alice`, diff `(2, 2)`). -/
theorem claim_C1_witness :
    stackECBA ≠ [] ∧ stackFDBA ≠ [] ∧
    ((stackECBA.drop (findLastCommonFrameIndex stackECBA stackFDBA).1).length =
      (stackFDBA.drop (findLastCommonFrameIndex stackECBA stackFDBA).2).length ∧
    List.Forall₂ (fun a b => a.Same b = true)
      (stackECBA.drop (findLastCommonFrameIndex stackECBA stackFDBA).1)
      (stackFDBA.drop (findLastCommonFrameIndex stackECBA stackFDBA).2) ∧
    findLastCommonFrameIndex stackECBA stackFDBA ≠ (0, 0)) :=
  ⟨by decide, by decide, claim_C1 stackECBA stackFDBA (by decide) (by decide)⟩

/-- C2 counterexample: the claim determines the result `(0, 0)` when both
stacks are empty, but the code's `(0,0) → (1,1)` bump fires for empty inputs
too, so `findLastCommonFrameIndex [] []` is `(1, 1)`, not `(0, 0)`. -/
theorem claim_C2_counterexample :
    ¬(findLastCommonFrameIndex ([] : List FrameInfo) ([] : List FrameInfo) = (0, 0)) := by
  decide

/-- C2 amended: when exactly one stack is empty the empty stack's index is 0
and the non-empty stack's index is its full length; when both stacks are
empty the result is `(1, 1)` (not `(0, 0)` as the claim would have it). -/
theorem claim_C2_amended (f s : List FrameInfo) :
    (f = [] → s ≠ [] → findLastCommonFrameIndex f s = (0, s.length)) ∧
    (s = [] → f ≠ [] → findLastCommonFrameIndex f s = (f.length, 0)) ∧
    (f = [] → s = [] → findLastCommonFrameIndex f s = (1, 1)) := by
  refine ⟨?_, ?_, ?_⟩
  · intro hf hs
    subst hf
    have hpos : 0 < s.length := List.length_pos.mpr hs
    rw [findLastCommonFrameIndex_eq]
    rw [if_neg (by simp), if_pos (by simpa using hpos)]
    simp [outerLoop, outerLoopAux]
  · intro hs hf
    subst hs
    have hpos : 0 < f.length := List.length_pos.mpr hf
    rw [findLastCommonFrameIndex_eq]
    rw [if_pos (by simpa using hpos)]
    rw [outerLoop, outerLoopAux_stop f.length f [] (f.length - List.length []) 0 (by simp)]
    simp
  · intro hf hs
    subst hf
    subst hs
    decide

/-- Witness for the amended C2, at a concrete non-empty stack and at the
pair of empty stacks. -/
theorem claim_C2_witness :
    findLastCommonFrameIndex ([] : List FrameInfo) stackCBA = (0, stackCBA.length) ∧
    findLastCommonFrameIndex stackCBA ([] : List FrameInfo) = (stackCBA.length, 0) ∧
    findLastCommonFrameIndex ([] : List FrameInfo) ([] : List FrameInfo) = (1, 1) :=
  ⟨(claim_C2_amended [] stackCBA).1 rfl (by decide),
   (claim_C2_amended stackCBA []).2.1 rfl (by decide),
   (claim_C2_amended [] []).2.2 rfl rfl⟩

/-- C3: for every pair of stacks of equal length at least 1 that are
element-wise `Same` at every position, `findLastCommonFrameIndex` returns
exactly `(1, 1)`. -/
theorem claim_C3 (f s : List FrameInfo) (_hlen : 1 ≤ f.length)
    (hsame : List.Forall₂ (fun a b => a.Same b = true) f s) :
    findLastCommonFrameIndex f s = (1, 1) := by
  have hl : f.length = s.length := hsame.length_eq
  rw [findLastCommonFrameIndex_eq]
  rw [if_neg (by omega), if_neg (by omega)]
  apply outerLoopAux_of_none
  apply innerScan_none_of_sameAt
  intro k hk
  have hf : 1 + k < f.length := hk
  have hs : 1 + k < s.length := by omega
  rw [sameAt_eq f s hf hs]
  have := hsame.get (i := 1 + k) hf hs
  simpa [List.get_eq_getElem] using this

/-- Witness for C3 at the spec's scenario: `Carol,Bob,Alice` against
`Carol,Bob,Alice` (innermost first) gives diff indices `(1, 1)`. -/
theorem claim_C3_witness :
    1 ≤ stackCBA.length ∧ findLastCommonFrameIndex stackCBA stackCBA = (1, 1) :=
  ⟨by decide,
   claim_C3 stackCBA stackCBA (by decide)
     (List.Forall₂.cons (by decide)
       (List.Forall₂.cons (by decide)
         (List.Forall₂.cons (by decide) List.Forall₂.nil)))⟩

theorem lookupG_updateG_self (m : List (Int × GoroutineInfo)) (k : Int)
    (v : GoroutineInfo) : lookupG (updateG m k v) k = some v := by
  induction m with
  | nil => simp [updateG, lookupG]
  | cons hd tl ih =>
    obtain ⟨k', w⟩ := hd
    by_cases hk : k' = k
    · simp [updateG, hk, lookupG]
    · simp only [updateG, if_neg hk, lookupG]
      exact ih

theorem lookupG_updateG_ne (m : List (Int × GoroutineInfo)) (k k' : Int)
    (v : GoroutineInfo) (hne : k' ≠ k) :
    lookupG (updateG m k v) k' = lookupG m k' := by
  induction m with
  | nil =>
    simp only [updateG, lookupG]
    rw [if_neg (by omega)]
  | cons hd tl ih =>
    obtain ⟨k0, w⟩ := hd
    by_cases hk : k0 = k
    · subst hk
      simp only [updateG, if_pos rfl, lookupG]
      rw [if_neg (by omega), if_neg (by omega)]
    · simp only [updateG, if_neg hk, lookupG]
      by_cases hk' : k0 = k'
      · rw [if_pos hk', if_pos hk']
      · rw [if_neg hk', if_neg hk']
        exact ih

theorem printFramesFrom_state (tr : Tracer) (g : GoroutineInfo) (i : Nat)
    (markFrom : Int) :
    (printFramesFrom tr g i markFrom).1.Frames = g.Frames ∧
    (printFramesFrom tr g i markFrom).1.TopMessage = g.TopMessage ∧
    (printFramesFrom tr g i markFrom).1.ID = g.ID ∧
    ∃ t, (printFramesFrom tr g i markFrom).1.History = g.History ++ t := by
  induction i generalizing g with
  | zero => exact ⟨rfl, rfl, rfl, [goSprintf (frameLine tr g 0) [Arg.char ' ']], rfl⟩
  | succ i ih =>
    have := ih { g with History := g.History ++
      [goSprintf (frameLine tr g (i + 1)) [Arg.char ' ']] }
    obtain ⟨h1, h2, h3, t, h4⟩ := this
    refine ⟨h1, h2, h3, ?_⟩
    exact ⟨[goSprintf (frameLine tr g (i + 1)) [Arg.char ' ']] ++ t, by
      rw [printFramesFrom]
      simpa [List.append_assoc] using h4⟩

theorem printFrameIndicesLowerThan_state (tr : Tracer) (g : GoroutineInfo)
    (idx markFrom : Int) :
    (printFrameIndicesLowerThan tr g idx markFrom).1.Frames = g.Frames ∧
    (printFrameIndicesLowerThan tr g idx markFrom).1.TopMessage = g.TopMessage ∧
    (printFrameIndicesLowerThan tr g idx markFrom).1.ID = g.ID ∧
    ∃ t, (printFrameIndicesLowerThan tr g idx markFrom).1.History = g.History ++ t := by
  unfold printFrameIndicesLowerThan
  by_cases hneg : (if idx < 0 then (g.Frames.length : Int) else idx) - 1 < 0
  · rw [if_pos hneg]
    exact ⟨rfl, rfl, rfl, [], by simp⟩
  · rw [if_neg hneg]
    exact printFramesFrom_state tr g _ _

theorem trace_not_proceed (tr : Tracer) (gid : Int) (captured : List Frame)
    (now : Nat) (args : List Arg) (hp : ¬proceedCheck tr = true) :
    Tracer.trace tr gid captured now args = (tr, []) := by
  unfold Tracer.trace
  simp [hp]

theorem trace_locked (tr : Tracer) (gid : Int) (captured : List Frame)
    (now : Nat) (args : List Arg) (hlock : tr.LockGoroutine = true)
    (hch : gid ≠ tr.goroutineID) :
    Tracer.trace tr gid captured now args = (tr, []) := by
  unfold Tracer.trace
  by_cases hp : proceedCheck tr = true
  · have hset : tr.setGoroutine gid =
        { proceed := false, changed := true, goroutine := none, tracer := tr,
          output := [] } := by
      unfold Tracer.setGoroutine
      rw [if_pos hch, if_pos hlock]
    rw [hset]
    simp [hp]
  · simp [hp]

/-- C7: a trace call made while `LockGoroutine` is configured and the calling
goroutine differs from the last-seen one is refused outright: no line is
emitted (not even the switch marker) and the tracer state — the goroutine
map, every goroutine's frames, message and history, and the last-seen id —
is returned unchanged. -/
theorem claim_C7 (tr : Tracer) (gid : Int) (captured : List Frame) (now : Nat)
    (args : List Arg) (hlock : tr.LockGoroutine = true)
    (hch : gid ≠ tr.goroutineID) :
    Tracer.trace tr gid captured now args = (tr, []) :=
  trace_locked tr gid captured now args hlock hch

/-- On a call that passes the guard and the goroutine resolution, the
tracked state for the calling goroutine ends up with the freshly formatted
top message, the merged frame stack
`captured[:newIdx] ++ stored[storedIdx:]`, and a history extended from the
stored one; every other goroutine's tracked state is untouched. -/
theorem trace_proceed_spec (tr : Tracer) (gid : Int) (captured : List Frame)
    (now : Nat) (args : List Arg) (hp : proceedCheck tr = true)
    (hnl : gid ≠ tr.goroutineID → tr.LockGoroutine = false) :
    ∃ g',
      lookupG (Tracer.trace tr gid captured now args).1.goroutines gid = some g' ∧
      g'.TopMessage = messageFrom args ∧
      g'.Frames =
        (captured.map fun fr => { Frame := fr, TimeRecorded := now }).take
            (findLastCommonFrameIndex (resolvedGoroutine tr gid).Frames
              (captured.map fun fr => { Frame := fr, TimeRecorded := now })).2 ++
          (resolvedGoroutine tr gid).Frames.drop
            (findLastCommonFrameIndex (resolvedGoroutine tr gid).Frames
              (captured.map fun fr => { Frame := fr, TimeRecorded := now })).1 ∧
      (∃ t, g'.History = (resolvedGoroutine tr gid).History ++ t) ∧
      ∀ k, k ≠ gid →
        lookupG (Tracer.trace tr gid captured now args).1.goroutines k =
          lookupG tr.goroutines k := by
  have hset : ∃ trX ch out, tr.setGoroutine gid = finishSet trX gid ch out ∧
      trX.goroutines = tr.goroutines := by
    by_cases hch : gid = tr.goroutineID
    · exact ⟨tr, false, [], by unfold Tracer.setGoroutine; rw [if_neg (by omega)], rfl⟩
    · refine ⟨{ tr with marker := markerOf tr }, true,
        [switchLine (markerOf tr) tr.goroutineID gid], ?_, rfl⟩
      unfold Tracer.setGoroutine
      rw [if_pos hch, if_neg (by simp [hnl hch])]
  obtain ⟨trX, ch, out, hset, hX⟩ := hset
  unfold Tracer.trace
  rw [hset]
  cases hl : lookupG tr.goroutines gid with
  | none =>
    simp only [hp, if_true, finishSet, resolvedGoroutine, hX, hl,
      Option.getD_none, Option.isNone_none, if_true]
    refine ⟨_, lookupG_updateG_self _ _ _, ?_⟩
    obtain ⟨hF, hT, _, t, hH⟩ := printFrameIndicesLowerThan_state _ _ _ _
    refine ⟨by rw [hT], by rw [hF], ⟨t, by rw [hH]⟩, fun k hk => ?_⟩
    rw [lookupG_updateG_ne _ _ _ _ hk, lookupG_updateG_ne _ _ _ _ hk]
  | some g0 =>
    simp only [hp, if_true, finishSet, resolvedGoroutine, hX, hl,
      Option.getD_some, Option.isNone_some, Bool.false_eq_true, if_false]
    refine ⟨_, lookupG_updateG_self _ _ _, ?_⟩
    obtain ⟨hF, hT, _, t, hH⟩ := printFrameIndicesLowerThan_state _ _ _ _
    refine ⟨by rw [hT], by rw [hF], ⟨t, by rw [hH]⟩, fun k hk => ?_⟩
    rw [lookupG_updateG_ne _ _ _ _ hk]

/-- C4: on every trace call that proceeds past the guards and the goroutine
resolution, the stored frame stack is replaced by the first `newIdx` freshly
captured frames followed by the previously stored frames from `storedIdx`
on, where `(storedIdx, newIdx)` is the diff of (stored, captured); the
frames kept from the stored stack are those very frame records, so their
capture timestamps are unchanged (the suffix from `newIdx` on of the new
stack IS the stored suffix from `storedIdx` on).  The captured stack is
non-empty, as `getFrameInfos` always records at least one frame. -/
theorem claim_C4 (tr : Tracer) (gid : Int) (captured : List Frame) (now : Nat)
    (args : List Arg) (hp : proceedCheck tr = true)
    (hnl : gid ≠ tr.goroutineID → tr.LockGoroutine = false)
    (hcap : captured ≠ []) :
    ∃ g',
      lookupG (Tracer.trace tr gid captured now args).1.goroutines gid = some g' ∧
      g'.Frames =
        (captured.map fun fr => { Frame := fr, TimeRecorded := now }).take
            (findLastCommonFrameIndex (resolvedGoroutine tr gid).Frames
              (captured.map fun fr => { Frame := fr, TimeRecorded := now })).2 ++
          (resolvedGoroutine tr gid).Frames.drop
            (findLastCommonFrameIndex (resolvedGoroutine tr gid).Frames
              (captured.map fun fr => { Frame := fr, TimeRecorded := now })).1 ∧
      g'.Frames.drop
          (findLastCommonFrameIndex (resolvedGoroutine tr gid).Frames
            (captured.map fun fr => { Frame := fr, TimeRecorded := now })).2 =
        (resolvedGoroutine tr gid).Frames.drop
          (findLastCommonFrameIndex (resolvedGoroutine tr gid).Frames
            (captured.map fun fr => { Frame := fr, TimeRecorded := now })).1 := by
  obtain ⟨g', hlook, _, hfr, _, _⟩ :=
    trace_proceed_spec tr gid captured now args hp hnl
  set c := captured.map fun fr => ({ Frame := fr, TimeRecorded := now } : FrameInfo)
    with hc
  set g0 := resolvedGoroutine tr gid with hg0
  have hcne : c ≠ [] := by
    simp only [hc, ne_eq, List.map_eq_nil_iff]
    exact hcap
  have hle := findLastCommonFrameIndex_le g0.Frames c (by tauto)
  have halign := findLastCommonFrameIndex_align g0.Frames c
  have hlen2 : (findLastCommonFrameIndex g0.Frames c).2 ≤ c.length := by omega
  have htk : (c.take (findLastCommonFrameIndex g0.Frames c).2).length =
      (findLastCommonFrameIndex g0.Frames c).2 := by
    rw [List.length_take]
    omega
  refine ⟨g', hlook, hfr, ?_⟩
  rw [hfr]
  calc (c.take (findLastCommonFrameIndex g0.Frames c).2 ++
        g0.Frames.drop (findLastCommonFrameIndex g0.Frames c).1).drop
          (findLastCommonFrameIndex g0.Frames c).2
      = (c.take (findLastCommonFrameIndex g0.Frames c).2 ++
        g0.Frames.drop (findLastCommonFrameIndex g0.Frames c).1).drop
          (c.take (findLastCommonFrameIndex g0.Frames c).2).length := by rw [htk]
    _ = g0.Frames.drop (findLastCommonFrameIndex g0.Frames c).1 :=
        List.drop_left _ _

/-- Witness for C4 at the sample tracer: goroutine 2 has no stored frames,
one frame is captured, the diff is `(0, 1)` and the stored stack becomes the
captured one. -/
theorem claim_C4_witness :
    proceedCheck sampleTracer = true ∧
    ([sampleFrame] : List Frame) ≠ [] ∧
    (∃ g',
      lookupG (Tracer.trace sampleTracer 2 [sampleFrame] 5 []).1.goroutines 2 = some g' ∧
      g'.Frames =
        ([sampleFrame].map fun fr => { Frame := fr, TimeRecorded := 5 }).take
            (findLastCommonFrameIndex (resolvedGoroutine sampleTracer 2).Frames
              ([sampleFrame].map fun fr => { Frame := fr, TimeRecorded := 5 })).2 ++
          (resolvedGoroutine sampleTracer 2).Frames.drop
            (findLastCommonFrameIndex (resolvedGoroutine sampleTracer 2).Frames
              ([sampleFrame].map fun fr => { Frame := fr, TimeRecorded := 5 })).1 ∧
      g'.Frames.drop
          (findLastCommonFrameIndex (resolvedGoroutine sampleTracer 2).Frames
            ([sampleFrame].map fun fr => { Frame := fr, TimeRecorded := 5 })).2 =
        (resolvedGoroutine sampleTracer 2).Frames.drop
          (findLastCommonFrameIndex (resolvedGoroutine sampleTracer 2).Frames
            ([sampleFrame].map fun fr => { Frame := fr, TimeRecorded := 5 })).1) :=
  ⟨rfl, by decide,
   claim_C4 sampleTracer 2 [sampleFrame] 5 [] rfl (fun _ => rfl) (by decide)⟩

/-- C9: after every trace call that proceeds past the guards and the
goroutine resolution with a non-empty captured stack, the stored frame stack
has the same length as the captured stack and is element-wise `Same` to it —
the merge only restores timestamps of ancestor frames, never the shape. -/
theorem claim_C9 (tr : Tracer) (gid : Int) (captured : List Frame) (now : Nat)
    (args : List Arg) (hp : proceedCheck tr = true)
    (hnl : gid ≠ tr.goroutineID → tr.LockGoroutine = false)
    (hcap : captured ≠ []) :
    ∃ g',
      lookupG (Tracer.trace tr gid captured now args).1.goroutines gid = some g' ∧
      g'.Frames.length = captured.length ∧
      List.Forall₂ (fun a b => a.Same b = true) g'.Frames
        (captured.map fun fr => { Frame := fr, TimeRecorded := now }) := by
  obtain ⟨g', hlook, _, hfr, _, _⟩ :=
    trace_proceed_spec tr gid captured now args hp hnl
  set c := captured.map fun fr => ({ Frame := fr, TimeRecorded := now } : FrameInfo)
    with hc
  set g0 := resolvedGoroutine tr gid with hg0
  have hcne : c ≠ [] := by
    simp only [hc, ne_eq, List.map_eq_nil_iff]
    exact hcap
  have hle := findLastCommonFrameIndex_le g0.Frames c (by tauto)
  have halign := findLastCommonFrameIndex_align g0.Frames c
  have hmatch := findLastCommonFrameIndex_matched g0.Frames c
  have hsuffix := forall₂_drop_of_sameAt g0.Frames c _ _ hle halign hmatch
  have hprefix : List.Forall₂ (fun a b => a.Same b = true)
      (c.take (findLastCommonFrameIndex g0.Frames c).2)
      (c.take (findLastCommonFrameIndex g0.Frames c).2) :=
    List.forall₂_same.mpr fun x _ => by simp [FrameInfo.Same]
  have hall : List.Forall₂ (fun a b => a.Same b = true)
      (c.take (findLastCommonFrameIndex g0.Frames c).2 ++
        g0.Frames.drop (findLastCommonFrameIndex g0.Frames c).1) c := by
    have h2 := List.rel_append hprefix hsuffix
    simpa only [List.take_append_drop] using h2
  refine ⟨g', hlook, ?_, ?_⟩
  · have := (hfr ▸ hall.length_eq : g'.Frames.length = c.length)
    rw [this, hc, List.length_map]
  · rw [hfr]
    exact hall

/-- Witness for C9 at the sample tracer: after the call, goroutine 2's
stored stack is element-wise `Same` to (indeed equal to) the captured one. -/
theorem claim_C9_witness :
    proceedCheck sampleTracer = true ∧
    ([sampleFrame] : List Frame) ≠ [] ∧
    (∃ g',
      lookupG (Tracer.trace sampleTracer 2 [sampleFrame] 5 []).1.goroutines 2 = some g' ∧
      g'.Frames.length = ([sampleFrame] : List Frame).length ∧
      List.Forall₂ (fun a b => a.Same b = true) g'.Frames
        ([sampleFrame].map fun fr => { Frame := fr, TimeRecorded := 5 })) :=
  ⟨rfl, by decide,
   claim_C9 sampleTracer 2 [sampleFrame] 5 [] rfl (fun _ => rfl) (by decide)⟩

theorem frameLine_congr (tr1 tr2 : Tracer) (g : GoroutineInfo) (i : Nat)
    (hs : tr1.SourceLength = tr2.SourceLength)
    (ho : tr1.OmitTime = tr2.OmitTime) :
    frameLine tr1 g i = frameLine tr2 g i := by
  unfold frameLine
  rw [hs, ho]

theorem printFramesFrom_congr (tr1 tr2 : Tracer) (g : GoroutineInfo) (i : Nat)
    (markFrom : Int) (hs : tr1.SourceLength = tr2.SourceLength)
    (ho : tr1.OmitTime = tr2.OmitTime) :
    printFramesFrom tr1 g i markFrom = printFramesFrom tr2 g i markFrom := by
  induction i generalizing g with
  | zero =>
    rw [printFramesFrom, printFramesFrom, frameLine_congr tr1 tr2 g 0 hs ho]
  | succ i ih =>
    rw [printFramesFrom, printFramesFrom,
      frameLine_congr tr1 tr2 g (i + 1) hs ho, ih]

theorem printFrameIndicesLowerThan_congr (tr1 tr2 : Tracer) (g : GoroutineInfo)
    (idx markFrom : Int) (hs : tr1.SourceLength = tr2.SourceLength)
    (ho : tr1.OmitTime = tr2.OmitTime) :
    printFrameIndicesLowerThan tr1 g idx markFrom =
      printFrameIndicesLowerThan tr2 g idx markFrom := by
  unfold printFrameIndicesLowerThan
  by_cases hneg : (if idx < 0 then (g.Frames.length : Int) else idx) - 1 < 0
  · rw [if_pos hneg, if_pos hneg]
  · rw [if_neg hneg, if_neg hneg, printFramesFrom_congr tr1 tr2 g _ _ hs ho]

/-- C8: across any trace call, the history held before the call by any
tracked goroutine is a prefix of the history held after it — histories are
append-only. -/
theorem claim_C8 (tr : Tracer) (gid : Int) (captured : List Frame) (now : Nat)
    (args : List Arg) (k : Int) (g : GoroutineInfo)
    (hg : lookupG tr.goroutines k = some g) :
    ∃ g' t,
      lookupG (Tracer.trace tr gid captured now args).1.goroutines k = some g' ∧
      g'.History = g.History ++ t := by
  by_cases hp : proceedCheck tr = true
  · by_cases hrefuse : gid ≠ tr.goroutineID ∧ tr.LockGoroutine = true
    · rw [trace_locked tr gid captured now args hrefuse.2 hrefuse.1]
      exact ⟨g, [], hg, by simp⟩
    · have hnl : gid ≠ tr.goroutineID → tr.LockGoroutine = false := by
        intro hch
        rcases Bool.eq_false_or_eq_true tr.LockGoroutine with h | h
        · exact absurd ⟨hch, h⟩ hrefuse
        · exact h
      obtain ⟨g', hlook, _, _, ⟨t, hh⟩, hother⟩ :=
        trace_proceed_spec tr gid captured now args hp hnl
      by_cases hk : k = gid
      · subst hk
        refine ⟨g', t, hlook, ?_⟩
        rw [hh]
        have : resolvedGoroutine tr k = g := by simp [resolvedGoroutine, hg]
        rw [this]
      · exact ⟨g, [], by rw [hother k hk]; exact hg, by simp⟩
  · rw [trace_not_proceed tr gid captured now args hp]
    exact ⟨g, [], hg, by simp⟩

/-- Witness for C8 at the sample tracer: goroutine 2's pre-call history
`["old line"]` is a prefix of its post-call history. -/
theorem claim_C8_witness :
    lookupG sampleTracer.goroutines 2 = some sampleG2 ∧
    (∃ g' t,
      lookupG (Tracer.trace sampleTracer 2 [sampleFrame] 5 []).1.goroutines 2 = some g' ∧
      g'.History = sampleG2.History ++ t) :=
  ⟨rfl, claim_C8 sampleTracer 2 [sampleFrame] 5 [] 2 sampleG2 rfl⟩

/-- C5 counterexample: with the full-history flag set and a goroutine
switch, the lines after the switch marker are NOT exactly the history log —
at the sample input the emitted lines after the marker are the history entry
followed by the line for the newly discovered frame. -/
theorem claim_C5_counterexample :
    ¬((Tracer.trace sampleTracer 2 [sampleFrame] 5 []).2.drop 1 =
      (resolvedGoroutine sampleTracer 2).History) := by
  decide

/-- C5 amended: on a call where the goroutine changed and the full-history
flag is configured, the emitted lines are the switch marker line, then the
whole history log, then STILL the lines for the newly discovered frames with
index below `newIdx` — the history is printed in addition to (before) them,
not instead of them (`printFrom` is left at `newIdx` in the history
branch). -/
theorem claim_C5_amended (tr : Tracer) (gid : Int) (captured : List Frame)
    (now : Nat) (args : List Arg) (hp : proceedCheck tr = true)
    (hch : gid ≠ tr.goroutineID) (hlock : tr.LockGoroutine = false)
    (hhist : tr.OnGoroutineSwitchPrintStackHistory = true) :
    (Tracer.trace tr gid captured now args).2 =
      switchLine (markerOf tr) tr.goroutineID gid ::
        ((resolvedGoroutine tr gid).History ++
          (printFrameIndicesLowerThan tr
            { resolvedGoroutine tr gid with
                TopMessage := messageFrom args,
                Frames :=
                  (captured.map fun fr => { Frame := fr, TimeRecorded := now }).take
                      (findLastCommonFrameIndex (resolvedGoroutine tr gid).Frames
                        (captured.map fun fr => { Frame := fr, TimeRecorded := now })).2 ++
                    (resolvedGoroutine tr gid).Frames.drop
                      (findLastCommonFrameIndex (resolvedGoroutine tr gid).Frames
                        (captured.map fun fr => { Frame := fr, TimeRecorded := now })).1 }
            ((findLastCommonFrameIndex (resolvedGoroutine tr gid).Frames
              (captured.map fun fr => { Frame := fr, TimeRecorded := now })).2 : Int)
            ((findLastCommonFrameIndex (resolvedGoroutine tr gid).Frames
              (captured.map fun fr => { Frame := fr, TimeRecorded := now })).2 : Int)).2) := by
  have hset : tr.setGoroutine gid = finishSet { tr with marker := markerOf tr } gid true
      [switchLine (markerOf tr) tr.goroutineID gid] := by
    unfold Tracer.setGoroutine
    rw [if_pos hch, if_neg (by simp [hlock])]
  unfold Tracer.trace
  rw [hset]
  cases hl : lookupG tr.goroutines gid with
  | none =>
    simp only [hp, if_true, finishSet, resolvedGoroutine, hl, Option.getD_none,
      Option.isNone_none, if_true, hhist, Bool.and_self, Bool.not_true,
      Bool.false_and, Bool.and_false, Bool.false_eq_true, if_false,
      printHistory, Bool.true_and, Bool.and_true]
    simp
    exact congrArg Prod.snd (printFrameIndicesLowerThan_congr _ _ _ _ _ rfl rfl)
  | some g0 =>
    simp only [hp, if_true, finishSet, resolvedGoroutine, hl, Option.getD_some,
      Option.isNone_some, Bool.false_eq_true, if_false, hhist, Bool.and_self,
      Bool.not_true, Bool.false_and, Bool.and_false, printHistory,
      Bool.true_and, Bool.and_true]
    simp
    exact congrArg Prod.snd (printFrameIndicesLowerThan_congr _ _ _ _ _ rfl rfl)

/-- Witness for the amended C5 at the sample input. -/
theorem claim_C5_witness :
    (Tracer.trace sampleTracer 2 [sampleFrame] 5 []).2 =
      switchLine (markerOf sampleTracer) sampleTracer.goroutineID 2 ::
        ((resolvedGoroutine sampleTracer 2).History ++
          (printFrameIndicesLowerThan sampleTracer
            { resolvedGoroutine sampleTracer 2 with
                TopMessage := messageFrom [],
                Frames :=
                  ([sampleFrame].map fun fr => { Frame := fr, TimeRecorded := 5 }).take
                      (findLastCommonFrameIndex (resolvedGoroutine sampleTracer 2).Frames
                        ([sampleFrame].map fun fr => { Frame := fr, TimeRecorded := 5 })).2 ++
                    (resolvedGoroutine sampleTracer 2).Frames.drop
                      (findLastCommonFrameIndex (resolvedGoroutine sampleTracer 2).Frames
                        ([sampleFrame].map fun fr => { Frame := fr, TimeRecorded := 5 })).1 }
            ((findLastCommonFrameIndex (resolvedGoroutine sampleTracer 2).Frames
              ([sampleFrame].map fun fr => { Frame := fr, TimeRecorded := 5 })).2 : Int)
            ((findLastCommonFrameIndex (resolvedGoroutine sampleTracer 2).Frames
              ([sampleFrame].map fun fr => { Frame := fr, TimeRecorded := 5 })).2 : Int)).2) :=
  claim_C5_amended sampleTracer 2 [sampleFrame] 5 [] rfl (by decide) rfl rfl

theorem goSprintfAux_repeat_v (args : List Arg) :
    goSprintfAux (goRepeat ("%v ") args.length).data args = spaceTrailed args := by
  induction args with
  | nil => rfl
  | cons a args ih =>
    have hdata : (goRepeat ("%v ") (args.length + 1)).data =
        '%' :: 'v' :: ' ' :: (goRepeat ("%v ") args.length).data := by
      show (("%v " : String) ++ goRepeat ("%v ") args.length).data = _
      rw [String.data_append]
      rfl
    show goSprintfAux (goRepeat ("%v ") (args.length + 1)).data (a :: args) = _
    rw [hdata]
    show goShow a ++ (String.singleton ' ' ++
      goSprintfAux (goRepeat ("%v ") args.length).data args) = _
    rw [ih]
    show goShow a ++ (" " ++ spaceTrailed args) = goShow a ++ " " ++ spaceTrailed args
    rw [String.append_assoc]

theorem spaceTrailed_eq (args : List Arg) (h : args ≠ []) :
    spaceTrailed args = spaceJoined args ++ " " := by
  induction args with
  | nil => exact absurd rfl h
  | cons a args ih =>
    cases args with
    | nil => simp [spaceTrailed, spaceJoined]
    | cons b rest =>
      show goShow a ++ " " ++ spaceTrailed (b :: rest) = spaceJoined (a :: b :: rest) ++ " "
      rw [ih (by simp)]
      rw [show spaceJoined (a :: b :: rest) =
        goShow a ++ " " ++ spaceJoined (b :: rest) from rfl]
      simp [String.append_assoc]

/-- C6 counterexample: for the one-element non-string argument list `[7]`,
the claim's "space-joined placeholders" message would be `"7"`, but
`messageFrom` produces `"7 "` — the synthesized format `"%v "` repeats the
trailing space after every value, the last included. -/
theorem claim_C6_counterexample :
    ¬(messageFrom [Arg.int 7] = spaceJoined [Arg.int 7]) := by
  decide

/-- C6 amended: a non-empty argument list with a non-string first element
produces the `k` printed values each followed by one space — the space-join
of all `k` values plus a trailing space; a string first element is the
format and the remaining arguments its substitution values; the empty
argument list gives the empty message. -/
theorem claim_C6_amended :
    (∀ (a : Arg) (args : List Arg), (∀ s, a ≠ Arg.str s) →
      messageFrom (a :: args) = spaceJoined (a :: args) ++ " ") ∧
    (∀ (format : String) (rest : List Arg),
      messageFrom (Arg.str format :: rest) = goSprintf format rest) ∧
    messageFrom ([] : List Arg) = "" := by
  refine ⟨?_, fun format rest => rfl, rfl⟩
  intro a args ha
  have hmsg : messageFrom (a :: args) =
      goSprintf (goRepeat ("%v ") (a :: args).length) (a :: args) := by
    cases a with
    | str s0 => exact absurd rfl (ha s0)
    | int n => rfl
    | char c => rfl
  rw [hmsg]
  show goSprintfAux (goRepeat ("%v ") (a :: args).length).data (a :: args) = _
  rw [goSprintfAux_repeat_v (a :: args), spaceTrailed_eq (a :: args) (by simp)]

/-- Witness for the amended C6: `messageFrom [7, 8]` is `"7 8 "`. -/
theorem claim_C6_witness :
    messageFrom [Arg.int 7, Arg.int 8] = spaceJoined [Arg.int 7, Arg.int 8] ++ " " :=
  claim_C6_amended.1 (Arg.int 7) [Arg.int 8] (fun _ h => Arg.noConfusion h)

/-- C10: the frame equality receivers are defined only when both operands
are present — `Equal` and `Same` dereference both pointers and fault
(`none`) exactly when an operand is absent — while `Copy` is nil-safe and
maps the absent value to the absent value (and a present one to an equal
present one). -/
theorem claim_C10 :
    copyPtr none = none ∧
    (∀ fr : FrameInfo, copyPtr (some fr) = some fr) ∧
    ∀ a b : Option FrameInfo,
      (equalPtr a b = none ↔ a = none ∨ b = none) ∧
      (samePtr a b = none ↔ a = none ∨ b = none) := by
  refine ⟨rfl, fun fr => rfl, fun a b => ⟨?_, ?_⟩⟩
  · cases a <;> cases b <;> simp [equalPtr]
  · cases a <;> cases b <;> simp [samePtr]

/-- Witness for C7: with the lock configured, a call from goroutine 2 while
goroutine 1 was last seen returns the tracer unchanged and emits nothing. -/
theorem claim_C7_witness :
    ({ sampleTracer with LockGoroutine := true } : Tracer).LockGoroutine = true ∧
    (2 : Int) ≠ ({ sampleTracer with LockGoroutine := true } : Tracer).goroutineID ∧
    Tracer.trace { sampleTracer with LockGoroutine := true } 2 [sampleFrame] 5 [] =
      ({ sampleTracer with LockGoroutine := true }, []) :=
  ⟨rfl, by decide,
   claim_C7 { sampleTracer with LockGoroutine := true } 2 [sampleFrame] 5 []
     rfl (by decide)⟩

end GoTrace
